import Mathlib

/-!
Shallow embedding of the firebasil Realtime-Database event-stream client:
the SSE line/message framer and client lifecycle (src/firebasil/sse/sse_client.py)
and the database event mapper and query-node builders (src/firebasil/rtdb.py).

Bytes are modelled as `List Nat` (each < 256), Python `str` as Lean `String`,
Python dicts as insertion-ordered association lists with overwrite-on-update,
and fallible Python code as `Except`/`Option`.
-/

namespace Firebasil

/-! ### Python string helpers -/

/-- The whitespace characters Python `str.strip()` removes (ASCII subset;
the unicode spaces Python additionally strips do not occur in this protocol). -/
def pySpaceChars : List Char := [' ', '\t', '\n', '\r', '\x0b', '\x0c']

/-- Is this a Python whitespace character? -/
def pyIsSpace (c : Char) : Bool := pySpaceChars.contains c

/-- Python `str.strip()`. -/
def pyStrip (s : String) : String :=
  ⟨((s.data.dropWhile pyIsSpace).reverse.dropWhile pyIsSpace).reverse⟩

/-- Split a character list at every newline, Python `str.split("\n")` semantics:
the result always has one more group than there are newlines. -/
def splitCharsNl : List Char → List (List Char)
  | [] => [[]]
  | c :: rest =>
    if c = '\n' then [] :: splitCharsNl rest
    else
      match splitCharsNl rest with
      | [] => [[c]]
      | g :: gs => (c :: g) :: gs

/-- Python `str.split("\n")`. -/
def splitNl (s : String) : List String :=
  (splitCharsNl s.data).map (fun cs => ⟨cs⟩)

/-- Python `str.rstrip("\n")`: drop every trailing newline. -/
def rstripNl (s : String) : String :=
  ⟨(s.data.reverse.dropWhile (· == '\n')).reverse⟩

/-- Python `str.endswith("\n")`. -/
def endsNl (s : String) : Bool :=
  match s.data.reverse with
  | c :: _ => c == '\n'
  | [] => false

/-- Python `str.endswith("\n\n")`. -/
def endsNlNl (s : String) : Bool :=
  match s.data.reverse with
  | c :: c2 :: _ => c == '\n' && c2 == '\n'
  | _ => false

/-- Split at the first colon: Python `line.split(":", 1)` followed by unpacking
into two names; `none` models the `ValueError` when the line has no colon. -/
def splitColon1Chars : List Char → Option (List Char × List Char)
  | [] => none
  | c :: rest =>
    if c = ':' then some ([], rest)
    else
      match splitColon1Chars rest with
      | none => none
      | some (k, v) => some (c :: k, v)

/-- Python `line.split(":", 1)` unpacked into (before, after); `none` = no colon. -/
def splitColon1 (s : String) : Option (String × String) :=
  match splitColon1Chars s.data with
  | none => none
  | some (k, v) => some (⟨k⟩, ⟨v⟩)

/-- Python `"/".join(xs)`. -/
def joinSlash : List String → String
  | [] => ""
  | [x] => x
  | x :: rest => x ++ "/" ++ joinSlash rest

/-! ### UTF-8 codec (model of Python `bytes.decode("utf-8")` strict mode and
`str` to bytes encoding).  Decoding rejects stray/missing continuation bytes,
overlong encodings, surrogates and code points above 0x10FFFF, exactly the
inputs on which Python raises `UnicodeDecodeError` (a `UnicodeError`). -/

/-- UTF-8 encoding of one unicode scalar value. -/
def utf8EncodeNat (n : Nat) : List Nat :=
  if n < 0x80 then [n]
  else if n < 0x800 then [0xC0 + n / 64, 0x80 + n % 64]
  else if n < 0x10000 then [0xE0 + n / 4096, 0x80 + (n / 64) % 64, 0x80 + n % 64]
  else [0xF0 + n / 262144, 0x80 + (n / 4096) % 64, 0x80 + (n / 64) % 64, 0x80 + n % 64]

/-- UTF-8 encoding of a string. -/
def utf8Encode (s : String) : List Nat :=
  s.data.foldr (fun c acc => utf8EncodeNat c.toNat ++ acc) []

/-- Is this byte a UTF-8 continuation byte? -/
def isCont (b : Nat) : Bool := 0x80 ≤ b && b < 0xC0

/-- Is this code point a valid non-surrogate unicode scalar value? -/
def validScalar (n : Nat) : Bool :=
  (n < 0xD800 || 0xE000 ≤ n) && n < 0x110000

/-- Strict UTF-8 decoding of a byte list; `none` models `UnicodeDecodeError`
(including the incomplete-trailing-sequence case the framer relies on). -/
def utf8DecodeChars : List Nat → Option (List Char)
  | [] => some []
  | b :: rest =>
    if b < 0x80 then
      (utf8DecodeChars rest).map (fun cs => Char.ofNat b :: cs)
    else if b < 0xC2 then
      none
    else if b < 0xE0 then
      match rest with
      | b1 :: rest2 =>
        if isCont b1 then
          (utf8DecodeChars rest2).map
            (fun cs => Char.ofNat ((b - 0xC0) * 64 + (b1 - 0x80)) :: cs)
        else none
      | [] => none
    else if b < 0xF0 then
      match rest with
      | b1 :: b2 :: rest3 =>
        if isCont b1 && isCont b2 then
          let n := (b - 0xE0) * 4096 + (b1 - 0x80) * 64 + (b2 - 0x80)
          if 0x800 ≤ n && validScalar n then
            (utf8DecodeChars rest3).map (fun cs => Char.ofNat n :: cs)
          else none
        else none
      | _ => none
    else if b < 0xF5 then
      match rest with
      | b1 :: b2 :: b3 :: rest4 =>
        if isCont b1 && isCont b2 && isCont b3 then
          let n := (b - 0xF0) * 262144 + (b1 - 0x80) * 4096 + (b2 - 0x80) * 64 + (b3 - 0x80)
          if 0x10000 ≤ n && n < 0x110000 then
            (utf8DecodeChars rest4).map (fun cs => Char.ofNat n :: cs)
          else none
        else none
      | _ => none
    else none

/-- Strict UTF-8 decoding to a string. -/
def utf8DecodeStr (bs : List Nat) : Option String :=
  (utf8DecodeChars bs).map (fun cs => ⟨cs⟩)

/-! ### JSON values and a model of Python `json.loads`

`firebasil.types.JSON` is the cyclic union
`None | str | int | float | bool | List[JSON] | Mapping[str, JSON]`.
Floats are not modelled (no claim touches them); integers stand for the
numeric case.  Objects are insertion-ordered association lists; duplicate
keys overwrite in place, matching Python dict semantics. -/

inductive JSON where
  | null : JSON
  | bool (b : Bool) : JSON
  | int (n : Int) : JSON
  | str (s : String) : JSON
  | arr (elems : List JSON) : JSON
  | obj (members : List (String × JSON)) : JSON

/-- Python dict assignment `d[k] = v`: overwrite in place if `k` is present,
otherwise append. -/
def dictInsertJ (d : List (String × JSON)) (k : String) (v : JSON) :
    List (String × JSON) :=
  match d with
  | [] => [(k, v)]
  | (k0, v0) :: rest =>
    if k0 = k then (k0, v) :: rest else (k0, v0) :: dictInsertJ rest k v

/-- Python dict subscript `d[k]`; `none` models the `KeyError`. -/
def objLookup (d : List (String × JSON)) (k : String) : Option JSON :=
  match d with
  | [] => none
  | (k0, v0) :: rest => if k0 = k then some v0 else objLookup rest k

/-- The whitespace characters `json.loads` skips between tokens. -/
def jsonWsChars : List Char := [' ', '\t', '\n', '\r']

/-- Skip whitespace between JSON tokens. -/
def jsonSkipWs (cs : List Char) : List Char :=
  cs.dropWhile (fun c => jsonWsChars.contains c)

/-- Hexadecimal digit value, by code point. -/
def hexVal (c : Char) : Option Nat :=
  let p := c.toNat
  if 48 ≤ p ∧ p ≤ 57 then some (p - 48)
  else if 97 ≤ p ∧ p ≤ 102 then some (p - 87)
  else if 65 ≤ p ∧ p ≤ 70 then some (p - 55)
  else none

/-- Parse the body of a JSON string literal (opening quote already consumed),
returning the decoded characters and the remaining input.  Handles the JSON
escapes; `\uXXXX` is accepted for non-surrogate code points (surrogate-pair
escapes do not occur in this protocol). -/
def pStringChars : List Char → Option (List Char × List Char)
  | [] => none
  | c :: rest =>
    if c = '"' then some ([], rest)
    else if c = '\\' then
      match rest with
      | [] => none
      | e :: rest2 =>
        if e = 'u' then
          match rest2 with
          | h1 :: h2 :: h3 :: h4 :: rest3 =>
            match hexVal h1, hexVal h2, hexVal h3, hexVal h4 with
            | some a, some b, some c2, some d =>
              let n := ((a * 16 + b) * 16 + c2) * 16 + d
              if n < 0xD800 || 0xE000 ≤ n then
                (pStringChars rest3).map (fun (s, r) => (Char.ofNat n :: s, r))
              else none
            | _, _, _, _ => none
          | _ => none
        else
          let dec : Option Char :=
            if e = '"' then some '"'
            else if e = '\\' then some '\\'
            else if e = '/' then some '/'
            else if e = 'b' then some '\x08'
            else if e = 'f' then some '\x0c'
            else if e = 'n' then some '\n'
            else if e = 'r' then some '\r'
            else if e = 't' then some '\t'
            else none
          match dec with
          | none => none
          | some d => (pStringChars rest2).map (fun (s, r) => (d :: s, r))
    else if c.toNat < 0x20 then none
    else (pStringChars rest).map (fun (s, r) => (c :: s, r))

/-- Parse a run of decimal digits into a number. -/
def pDigits : List Char → Nat → Option (Nat × List Char)
  | [], _ => none
  | c :: rest, acc =>
    if '0' ≤ c && c ≤ '9' then
      let acc2 := acc * 10 + (c.toNat - '0'.toNat)
      match rest with
      | c2 :: _ =>
        if '0' ≤ c2 && c2 ≤ '9' then pDigits rest acc2 else some (acc2, rest)
      | [] => some (acc2, [])
    else none

mutual

/-- Fuel-bounded recursive-descent parser for one JSON value.  Numbers are
integers only: a `.`, `e` or `E` after the digits makes the parse fail, a
deliberate narrowing (floats are outside the model and unused by the claims). -/
def pVal : Nat → List Char → Option (JSON × List Char)
  | 0, _ => none
  | fuel + 1, cs =>
    match jsonSkipWs cs with
    | [] => none
    | c :: rest =>
      if c = 'n' then
        match rest with
        | 'u' :: 'l' :: 'l' :: rest2 => some (.null, rest2)
        | _ => none
      else if c = 't' then
        match rest with
        | 'r' :: 'u' :: 'e' :: rest2 => some (.bool true, rest2)
        | _ => none
      else if c = 'f' then
        match rest with
        | 'a' :: 'l' :: 's' :: 'e' :: rest2 => some (.bool false, rest2)
        | _ => none
      else if c = '"' then
        (pStringChars rest).map (fun (s, r) => (.str ⟨s⟩, r))
      else if c = '[' then
        match jsonSkipWs rest with
        | ']' :: rest2 => some (.arr [], rest2)
        | rest2 => (pElems fuel rest2).map (fun (es, r) => (.arr es, r))
      else if c = '{' then
        match jsonSkipWs rest with
        | '}' :: rest2 => some (.obj [], rest2)
        | rest2 =>
          (pMembers fuel rest2).map
            (fun (ms, r) =>
              (.obj (ms.foldl (fun d kv => dictInsertJ d kv.1 kv.2) []), r))
      else if c = '-' then
        match pDigits rest 0 with
        | none => none
        | some (n, r) =>
          match r with
          | c2 :: _ =>
            if c2 = '.' || c2 = 'e' || c2 = 'E' then none
            else some (.int (-(n : Int)), r)
          | [] => some (.int (-(n : Int)), [])
      else
        match pDigits (c :: rest) 0 with
        | none => none
        | some (n, r) =>
          match r with
          | c2 :: _ =>
            if c2 = '.' || c2 = 'e' || c2 = 'E' then none
            else some (.int (n : Int), r)
          | [] => some (.int (n : Int), [])

/-- Parse one or more comma-separated array elements (up to `]`). -/
def pElems : Nat → List Char → Option (List JSON × List Char)
  | 0, _ => none
  | fuel + 1, cs =>
    match pVal fuel cs with
    | none => none
    | some (v, r) =>
      match jsonSkipWs r with
      | ',' :: r2 => (pElems fuel r2).map (fun (es, r3) => (v :: es, r3))
      | ']' :: r2 => some ([v], r2)
      | _ => none

/-- Parse one or more comma-separated object members (up to `}`);
duplicate keys overwrite, matching Python dict construction. -/
def pMembers : Nat → List Char → Option (List (String × JSON) × List Char)
  | 0, _ => none
  | fuel + 1, cs =>
    match jsonSkipWs cs with
    | '"' :: rest =>
      match pStringChars rest with
      | none => none
      | some (kcs, r) =>
        match jsonSkipWs r with
        | ':' :: r2 =>
          match pVal fuel r2 with
          | none => none
          | some (v, r3) =>
            match jsonSkipWs r3 with
            | ',' :: r4 =>
              (pMembers fuel r4).map (fun (ms, r5) => ((⟨kcs⟩, v) :: ms, r5))
            | '}' :: r4 => some ([(⟨kcs⟩, v)], r4)
            | _ => none
        | _ => none
    | _ => none

end

/-- Model of Python `json.loads`: parse one value, then require only
whitespace to remain (`Extra data` otherwise). -/
def jsonLoads (s : String) : Option JSON :=
  match pVal (s.data.length + 1) s.data with
  | none => none
  | some (v, r) => if jsonSkipWs r = [] then some v else none

/-! ### SSE messages and `emit_message`
(src/firebasil/sse/sse_client.py, `SseMessage` and `SseClient.open.emit_message`) -/

/-- The `SseMessage` dataclass: fields `event` (required), `data`, `origin`,
`last_event_id` (optional).  `data` holds a decoded JSON value; the others
hold trimmed strings. -/
structure SseMessage where
  event : String
  data : Option JSON := none
  origin : Option String := none
  lastEventId : Option String := none

instance : Inhabited SseMessage := ⟨⟨"", none, none, none⟩⟩

/-- A value stored in `message_dict`: the `data` key holds a decoded JSON
value, every other key holds a trimmed string. -/
inductive FieldVal where
  | str (s : String) : FieldVal
  | json (j : JSON) : FieldVal

/-- The errors `emit_message` can raise: the `ValueError` from unpacking a
colon-free line, `json.JSONDecodeError` from `json.loads`, and the
`TypeError`s from `SseMessage(**message_dict)` (unexpected keyword argument /
missing required argument `event`). -/
inductive EmitError where
  | noColon (line : String) : EmitError
  | jsonDecode (value : String) : EmitError
  | unexpectedKeyword (key : String) : EmitError
  | missingEvent : EmitError

/-- Python dict assignment for `message_dict`. -/
def dictInsertF (d : List (String × FieldVal)) (k : String) (v : FieldVal) :
    List (String × FieldVal) :=
  match d with
  | [] => [(k, v)]
  | (k0, v0) :: rest =>
    if k0 = k then (k0, v) :: rest else (k0, v0) :: dictInsertF rest k v

/-- Lookup in `message_dict`. -/
def dictLookupF (d : List (String × FieldVal)) (k : String) : Option FieldVal :=
  match d with
  | [] => none
  | (k0, v0) :: rest => if k0 = k then some v0 else dictLookupF rest k

/-- The loop of `emit_message`: skip falsy (empty) lines, split each remaining
line at its first colon, trim key and value, JSON-decode the value when the
key is `data`, and store into `message_dict`. -/
def buildDict : List String → List (String × FieldVal) →
    Except EmitError (List (String × FieldVal))
  | [], d => .ok d
  | line :: rest, d =>
    if line = "" then buildDict rest d
    else
      match splitColon1 line with
      | none => .error (.noColon line)
      | some (keyRaw, valueRaw) =>
        let key := pyStrip keyRaw
        let value := pyStrip valueRaw
        if key = "data" then
          match jsonLoads value with
          | none => .error (.jsonDecode value)
          | some j => buildDict rest (dictInsertF d "data" (.json j))
        else buildDict rest (dictInsertF d key (.str value))

/-- The keyword arguments `SseMessage.__init__` accepts. -/
def sseMessageFields : List String := ["event", "data", "origin", "last_event_id"]

/-- Extract a string-valued field (every key other than `data` stores one). -/
def fieldAsStr : Option FieldVal → Option String
  | some (.str s) => some s
  | _ => none

/-- Extract the JSON-valued `data` field. -/
def fieldAsJson : Option FieldVal → Option JSON
  | some (.json j) => some j
  | _ => none

/-- `SseMessage(**message_dict)`: raises for a keyword outside the dataclass
fields, or when the required `event` argument is missing. -/
def mkSseMessage (d : List (String × FieldVal)) : Except EmitError SseMessage :=
  match d.find? (fun kv => !(sseMessageFields.contains kv.1)) with
  | some kv => .error (.unexpectedKeyword kv.1)
  | none =>
    match fieldAsStr (dictLookupF d "event") with
    | none => .error .missingEvent
    | some ev =>
      .ok ⟨ev, fieldAsJson (dictLookupF d "data"),
        fieldAsStr (dictLookupF d "origin"),
        fieldAsStr (dictLookupF d "last_event_id")⟩

/-- `SseClient.open.emit_message` without the `create_task(on_message(...))`
side effect: build `message_dict` from the accumulated lines and assemble the
`SseMessage`.  An error kills the read-loop task. -/
def emit_message (lines : List String) : Except EmitError SseMessage := do
  let d ← buildDict lines []
  mkSseMessage d

/-! ### The framer: the read loop of `SseClient.open.listen_to_response` -/

/-- The loop state: `message_lines` (completed lines of the message being
accumulated) and `line_bytes` (the undecoded byte buffer). -/
structure FramerState where
  messageLines : List String
  lineBytes : List Nat

instance : Inhabited FramerState := ⟨⟨[], []⟩⟩

/-- One iteration of `async for new_bytes in self.response.content`:

* an empty chunk is ignored;
* otherwise the chunk is appended to `line_bytes` and the buffer is decoded;
  a `UnicodeError` just continues the loop (the buffer is kept);
* if the decoded text ends with a newline the buffer is reset and the text
  (with trailing newlines stripped) is split into lines appended to
  `message_lines`;
* if additionally the text ends with a blank line (`"\n\n"` suffix, or the
  text is exactly `"\n"`), `emit_message` runs on the accumulated lines and
  they are reset; at most one message is emitted per chunk.

Returns the new state and the emitted message, or the `emit_message` error
(which terminates the read loop). -/
def processChunk (st : FramerState) (chunk : List Nat) :
    Except EmitError (FramerState × Option SseMessage) :=
  if chunk = [] then .ok (st, none)
  else
    let buf := st.lineBytes ++ chunk
    match utf8DecodeStr buf with
    | none => .ok (⟨st.messageLines, buf⟩, none)
    | some decoded =>
      if endsNl decoded then
        let newLines := st.messageLines ++ splitNl (rstripNl decoded)
        if endsNlNl decoded || decoded = "\n" then
          match emit_message newLines with
          | .error e => .error e
          | .ok m => .ok (⟨[], []⟩, some m)
        else .ok (⟨newLines, []⟩, none)
      else .ok (⟨st.messageLines, buf⟩, none)

/-- Run the read loop over a whole chunk sequence, collecting the emitted
messages in order; stops at the first `emit_message` error. -/
def processChunks (st : FramerState) :
    List (List Nat) → Except EmitError (FramerState × List SseMessage)
  | [] => .ok (st, [])
  | c :: cs => do
    let (st1, m) ← processChunk st c
    let (st2, ms) ← processChunks st1 cs
    .ok (st2, m.toList ++ ms)

/-! ### Database event mapper (src/firebasil/rtdb.py, `RtdbNode.events.on_message`) -/

/-- The `EventType` enum. -/
inductive EventType where
  | put
  | patch
  | keep_alive
  | cancel
  | auth_revoked
deriving DecidableEq

/-- The wire value of each enum member. -/
def EventType.value : EventType → String
  | .put => "put"
  | .patch => "patch"
  | .keep_alive => "keep-alive"
  | .cancel => "cancel"
  | .auth_revoked => "auth_revoked"

/-- The errors `on_message` can raise while classifying one message:
`ValueError` from `EventType(name)` on an unknown name, `KeyError` from
`message.data["path"]` / `message.data["data"]`, and the `UnboundLocalError`
raised in the fallback branch (its `raise ValueError(f"... {event}")`
formats the local `event` before it was ever assigned, so the f-string itself
raises). -/
inductive MapError where
  | invalidEventType (name : String) : MapError
  | keyError (key : String) : MapError
  | unboundLocal : MapError

/-- `EventType(name)`: enum lookup by value; unknown names raise `ValueError`. -/
def eventTypeOf (name : String) : Except MapError EventType :=
  if name = "put" then .ok .put
  else if name = "patch" then .ok .patch
  else if name = "keep-alive" then .ok .keep_alive
  else if name = "cancel" then .ok .cancel
  else if name = "auth_revoked" then .ok .auth_revoked
  else .error (.invalidEventType name)

/-- The event names `EventType` accepts. -/
def knownEventNames : List String :=
  ["put", "patch", "keep-alive", "cancel", "auth_revoked"]

/-- The `RtdbEvent` dataclass.  The `path`/`data` fields carry whatever JSON
values `message.data["path"]` / `message.data["data"]` held (the `str`
annotation on `path` is a hint Python does not enforce). -/
structure RtdbEvent where
  event : EventType
  path : Option JSON := none
  data : Option JSON := none

/-- Python `x is None` on a message's decoded `data`: true when the field was
absent, and also when it held JSON `null` (`json.loads("null")` returns the
very same `None`). -/
def isPyNone : Option JSON → Bool
  | none => true
  | some .null => true
  | _ => false

/-- `RtdbNode.events.on_message`, without the queue side effect: classify one
SSE message into a database event.

* `message.data is None` → an event of the named kind with no path/data;
* `data` a dict → `RtdbEvent(event=EventType(...), path=data["path"],
  data=data["data"])`, evaluated left to right, so an unknown event name
  raises before a missing key does;
* otherwise → the fallback `raise`, which trips on the unbound local `event`. -/
def on_message_map (m : SseMessage) : Except MapError RtdbEvent :=
  match m.data with
  | none => do
    let ev ← eventTypeOf m.event
    pure ⟨ev, none, none⟩
  | some .null => do
    let ev ← eventTypeOf m.event
    pure ⟨ev, none, none⟩
  | some (.obj kvs) => do
    let ev ← eventTypeOf m.event
    let p ← match objLookup kvs "path" with
      | some v => pure v
      | none => Except.error (.keyError "path")
    let d ← match objLookup kvs "data" with
      | some v => pure v
      | none => Except.error (.keyError "data")
    pure ⟨ev, some p, some d⟩
  | some _ => .error .unboundLocal

/-! ### `SseClient.open` connection handshake (src/firebasil/sse/sse_client.py) -/

/-- What the initial `session.get` attempt produced: an
`aiohttp.ClientConnectionError`, or a response with an HTTP status. -/
inductive ConnectOutcome where
  | connectError
  | response (status : Nat)

/-- `RtdbEventStreamException`, with its two distinguishing messages:
`"Unable to connect to {url}"` (from the connection error) and
`"Bad response from {url}"` (from `raise_for_status`). -/
inductive StreamError where
  | unableToConnect (url : String) : StreamError
  | badResponse (url : String) : StreamError
deriving DecidableEq

/-- `aiohttp` `raise_for_status` raises exactly when `status >= 400`. -/
def successStatus (status : Nat) : Bool := status < 400

/-- What `open()` did: its outcome and which callbacks it scheduled. -/
structure OpenResult where
  result : Except StreamError Unit
  onErrorInvoked : Bool
  onOpenInvoked : Bool
  onMessageInvoked : Bool

/-- `SseClient.open`: on a connection error, schedule `on_error` (when
present) and raise the `"Unable to connect"` stream exception; on a
non-success status, schedule `on_error` (when present) and raise the
`"Bad response"` stream exception; on success, start the read-loop task,
whose first act is to schedule `on_open` (when present).  `on_message` is
only ever scheduled later, per completed message, inside the read loop. -/
def sseOpen (url : String) (hasOnOpen hasOnError : Bool)
    (outcome : ConnectOutcome) : OpenResult :=
  match outcome with
  | .connectError =>
    ⟨.error (.unableToConnect url), hasOnError, false, false⟩
  | .response status =>
    if successStatus status then ⟨.ok (), false, hasOnOpen, false⟩
    else ⟨.error (.badResponse url), hasOnError, false, false⟩

/-! ### Delivery queue (src/firebasil/rtdb.py, `RtdbNode.events`)

`on_message` runs as one task per arriving message; tasks are created in
message order and the event loop starts them in creation order, and
`events.put` on the unbounded `asyncio.Queue` appends without suspending, so
enqueue order equals arrival order.  A message whose classification raises
kills only its own task; the other messages still enqueue. -/

/-- The events enqueued for a message sequence, in arrival order
(messages whose classification raises contribute nothing). -/
def mappedEvents (msgs : List SseMessage) : List RtdbEvent :=
  msgs.foldr
    (fun m acc =>
      match on_message_map m with
      | .ok e => e :: acc
      | .error _ => acc)
    []

/-- State of the producer/consumer simulation: events not yet enqueued, the
FIFO queue contents, and the events the consumer has observed. -/
structure QState where
  pending : List RtdbEvent
  queue : List RtdbEvent
  observed : List RtdbEvent

/-- One scheduler step: `true` lets the producer enqueue its next event (a
no-op when none are left), `false` lets the consumer dequeue from the front
(a no-op when the queue is empty — `queue.get` just keeps waiting). -/
def qstep (s : QState) (producer : Bool) : QState :=
  if producer then
    match s.pending with
    | [] => s
    | e :: rest => ⟨rest, s.queue ++ [e], s.observed⟩
  else
    match s.queue with
    | [] => s
    | e :: rest => ⟨s.pending, rest, s.observed ++ [e]⟩

/-- Run an arbitrary interleaving of producer and consumer steps. -/
def qrun (s : QState) : List Bool → QState
  | [] => s
  | b :: bs => qrun (qstep s b) bs

/-! ### Query node builders (src/firebasil/rtdb.py, `RtdbNode`) -/

/-- A query-parameter value (`Any` in the source; the builders only ever
store strings, numbers or the raw `start_at`/`end_at`/`equal_to` argument). -/
inductive PVal where
  | s (v : String) : PVal
  | n (v : Int) : PVal
  | b (v : Bool) : PVal
deriving DecidableEq

/-- The query-relevant state of `RtdbNode`: its `path` and `query_params`
(`None` until a parameter builder runs, mirroring the dataclass default). -/
structure RtdbNode where
  path : String := ""
  queryParams : Option (List (String × PVal)) := none
deriving DecidableEq

/-- Python dict assignment for a parameter map. -/
def dictInsertP (d : List (String × PVal)) (k : String) (v : PVal) :
    List (String × PVal) :=
  match d with
  | [] => [(k, v)]
  | (k0, v0) :: rest =>
    if k0 = k then (k0, v) :: rest else (k0, v0) :: dictInsertP rest k v

/-- Lookup in a parameter map. -/
def dictLookupP (d : List (String × PVal)) (k : String) : Option PVal :=
  match d with
  | [] => none
  | (k0, v0) :: rest => if k0 = k then some v0 else dictLookupP rest k

/-- `RtdbNode.child`: join the extra segments with `/`, append to the
current path (with a `/` separator unless the path is empty), and build a
fresh node — `query_params` is left at its default `None`. -/
def child (node : RtdbNode) (path : List String) : RtdbNode :=
  let addedPath := joinSlash path
  let newPath := if node.path ≠ "" then joinSlash [node.path, addedPath] else addedPath
  { path := newPath }

/-- `RtdbNode._copy_with_params`: copy the current parameter map (an empty
one when it is `None`), apply the keyword update, and build a new node with
the same path. -/
def copy_with_params (node : RtdbNode) (k : String) (v : PVal) : RtdbNode :=
  let queryParams := node.queryParams.getD []
  { path := node.path, queryParams := some (dictInsertP queryParams k v) }

/-- `RtdbNode.order_by`: set `orderBy` to the quoted child location. -/
def order_by (node : RtdbNode) (childLocation : String) : RtdbNode :=
  copy_with_params node "orderBy" (.s ("\"" ++ childLocation ++ "\""))

/-- `RtdbNode.limit_to_first`: set `limitToFirst` to `str(limit)`. -/
def limit_to_first (node : RtdbNode) (limit : Int) : RtdbNode :=
  copy_with_params node "limitToFirst" (.s (toString limit))

/-- `RtdbNode.limit_to_last`: set `limitToLast` to `str(limit)`. -/
def limit_to_last (node : RtdbNode) (limit : Int) : RtdbNode :=
  copy_with_params node "limitToLast" (.s (toString limit))

/-- Quote string arguments, pass anything else through (the
`f'"{value}"' if isinstance(value, str) else value` pattern). -/
def quoteIfStr : PVal → PVal
  | .s v => .s ("\"" ++ v ++ "\"")
  | v => v

/-- `RtdbNode.start_at`. -/
def start_at (node : RtdbNode) (value : PVal) : RtdbNode :=
  copy_with_params node "startAt" (quoteIfStr value)

/-- `RtdbNode.end_at`. -/
def end_at (node : RtdbNode) (value : PVal) : RtdbNode :=
  copy_with_params node "endAt" (quoteIfStr value)

/-- `RtdbNode.equal_to`. -/
def equal_to (node : RtdbNode) (value : PVal) : RtdbNode :=
  copy_with_params node "equalTo" (quoteIfStr value)

/-- `RtdbNode.shallow`. -/
def shallow (node : RtdbNode) : RtdbNode :=
  copy_with_params node "shallow" (.s "true")

/-- `RtdbNode.export_format`: `format=export` (the `EXPORT_FORMAT` constant). -/
def export_format (node : RtdbNode) : RtdbNode :=
  copy_with_params node "format" (.s "export")

/-- `RtdbNode.timeout`: sets `timeout` to `f"{timeout.total_seconds()}s"`.
The `timedelta.total_seconds()` float formatting is abstracted: the argument
is the already-formatted seconds text, to which the source appends `"s"`. -/
def timeout (node : RtdbNode) (totalSeconds : String) : RtdbNode :=
  copy_with_params node "timeout" (.s (totalSeconds ++ "s"))

/-- The `SizeLimit` enum. -/
inductive SizeLimit where
  | tiny
  | small
  | medium
  | large
  | unlimited
deriving DecidableEq

/-- The wire value of each `SizeLimit` member. -/
def SizeLimit.value : SizeLimit → String
  | .tiny => "tiny"
  | .small => "small"
  | .medium => "medium"
  | .large => "large"
  | .unlimited => "unlimited"

/-- `RtdbNode.write_size_limit`: set `writeSizeLimit` to the enum value. -/
def write_size_limit (node : RtdbNode) (limit : SizeLimit) : RtdbNode :=
  copy_with_params node "writeSizeLimit" (.s limit.value)

/-! ### Derived notions used to state the properties -/

/-- The wire text of one SSE block: its lines, each followed by a newline,
then the terminating blank line. -/
def blockText (lines : List String) : String :=
  lines.foldr (fun l acc => l ++ "\n" ++ acc) "\n"

/-- Did `emit_message` succeed on these lines? -/
def emitOk (lines : List String) : Bool :=
  match emit_message lines with
  | .ok _ => true
  | .error _ => false

/-- A well-formed SSE block, given by its lines: at least one line, every
line nonempty and free of embedded newlines, and the lines assemble into a
valid `SseMessage`. -/
def goodBlockLines (lines : List String) : Bool :=
  !lines.isEmpty
    && lines.all (fun l => !(l = "") && !(l.data.contains '\n'))
    && emitOk lines

/-- The message a well-formed block assembles into. -/
def emittedMessage (lines : List String) : SseMessage :=
  match emit_message lines with
  | .ok m => m
  | .error _ => default

/-- The lines of a block joined by single newlines (the shape the framer
recovers after stripping the terminating blank line). -/
def interChars : List String → List Char
  | [] => []
  | [l] => l.data
  | l :: rest => l.data ++ '\n' :: interChars rest

/-- Did `on_message` classify this message without raising? -/
def mapOk (m : SseMessage) : Bool :=
  match on_message_map m with
  | .ok _ => true
  | .error _ => false

/-- A non-blank line whose trimmed field name is outside the `SseMessage`
dataclass fields (for example the standard SSE fields `id` and `retry`). -/
def unknownFieldLine (l : String) : Bool :=
  !(l = "")
    && (match splitColon1 l with
        | some kv => !(sseMessageFields.contains (pyStrip kv.1))
        | none => false)

/-! ## Theorems -/

/-! ### Shared reduction lemmas -/

/-- `Except` bind on an error short-circuits. -/
@[simp] theorem exceptBindError {ε β α : Type} {e : ε} {k : α → Except ε β} :
    (Except.error e >>= k : Except ε β) = Except.error e := rfl

/-- `Except` bind on a success applies the continuation. -/
@[simp] theorem exceptBindOk {ε β α : Type} {x : α} {k : α → Except ε β} :
    (Except.ok x >>= k : Except ε β) = k x := rfl

/-! ### Shared lemmas about the event mapper -/

/-- An event name outside the enum's values makes `EventType(name)` raise. -/
theorem eventTypeOf_not_known (name : String)
    (h : knownEventNames.contains name = false) :
    eventTypeOf name = .error (.invalidEventType name) := by
  have h' : ¬(name = "put" ∨ name = "patch" ∨ name = "keep-alive" ∨
      name = "cancel" ∨ name = "auth_revoked") := by
    intro hor
    rcases hor with h1 | h1 | h1 | h1 | h1 <;>
      simp [knownEventNames, h1, List.contains_cons] at h
  push_neg at h'
  obtain ⟨h1, h2, h3, h4, h5⟩ := h'
  simp [eventTypeOf, h1, h2, h3, h4, h5]

/-! ### C2 -/

/-- C2 counterexample: a `keep-alive` message that carries a dict payload
with `path`/`data` members maps to an event with that path and data attached,
not to null path and data — the mapper branches on the payload shape, not on
the event kind. -/
theorem keep_alive_dict_payload_attached :
    on_message_map ⟨"keep-alive", some (.obj [("path", .str "/x"), ("data", .int 1)]), none, none⟩
      = .ok ⟨.keep_alive, some (.str "/x"), some (.int 1)⟩
    ∧ some (JSON.str "/x") ≠ (none : Option JSON) :=
  ⟨rfl, by simp⟩

/-- C2 (amended): an SSE message with event name `keep-alive` whose `data`
is absent — or JSON `null`, which Python's `json.loads` also turns into
`None` — maps to `{kind: keep-alive, path: None, data: None}`; a dict
payload would instead be attached. -/
theorem keep_alive_without_payload_is_bare (origin lastEventId : Option String) :
    on_message_map ⟨"keep-alive", none, origin, lastEventId⟩
      = .ok ⟨.keep_alive, none, none⟩
    ∧ on_message_map ⟨"keep-alive", some .null, origin, lastEventId⟩
      = .ok ⟨.keep_alive, none, none⟩ :=
  ⟨rfl, rfl⟩

/-! ### C3 -/

/-- C3: a message whose event name is not one of
`put`/`patch`/`keep-alive`/`cancel`/`auth_revoked` makes the mapper raise —
no `RtdbEvent` is produced and the message is not silently dropped.  (On the
`None`/dict payload shapes the error is the `ValueError` from
`EventType(name)`; on other payload shapes the fallback branch raises before
the name is even examined.) -/
theorem unknown_event_name_rejected (m : SseMessage)
    (h : knownEventNames.contains m.event = false) :
    ∃ e, on_message_map m = .error e := by
  have he := eventTypeOf_not_known m.event h
  match hd : m.data with
  | none =>
    exact ⟨.invalidEventType m.event, by simp [on_message_map, hd, he]⟩
  | some .null =>
    exact ⟨.invalidEventType m.event, by simp [on_message_map, hd, he]⟩
  | some (.obj kvs) =>
    exact ⟨.invalidEventType m.event, by simp [on_message_map, hd, he]⟩
  | some (.bool b) => exact ⟨.unboundLocal, by simp [on_message_map, hd]⟩
  | some (.int n) => exact ⟨.unboundLocal, by simp [on_message_map, hd]⟩
  | some (.str s) => exact ⟨.unboundLocal, by simp [on_message_map, hd]⟩
  | some (.arr es) => exact ⟨.unboundLocal, by simp [on_message_map, hd]⟩

/-- Witness for C3 at the spec's own example, event name `bogus`. -/
theorem unknown_event_name_rejected_witness :
    knownEventNames.contains "bogus" = false
    ∧ ∃ e, on_message_map ⟨"bogus", none, none, none⟩ = .error e :=
  ⟨by decide, unknown_event_name_rejected ⟨"bogus", none, none, none⟩ (by decide)⟩

/-! ### C4 -/

/-- C4 counterexample: a `put` message with absent `data` does **not** make
the mapper raise — it maps to an event with null path and data, because the
`data is None` branch runs for every event kind. -/
theorem put_without_data_not_an_error :
    on_message_map ⟨"put", none, none, none⟩ = .ok ⟨.put, none, none⟩ := rfl

/-- C4 (amended): for a `put`/`patch` message, an absent (or JSON-null)
`data` payload raises nothing and yields an event with null path and data; a
dict payload missing `path` (resp. `data`) raises the untyped builtin
`KeyError`; a payload of any other shape raises the `UnboundLocalError` the
fallback branch trips on — none of these is the distinct typed stream
exception. -/
theorem put_patch_malformed_data_behavior (m : SseMessage)
    (hname : m.event = "put" ∨ m.event = "patch") :
    (isPyNone m.data = true → ∃ ev, on_message_map m = .ok ⟨ev, none, none⟩)
    ∧ (∀ kvs, m.data = some (.obj kvs) →
        (objLookup kvs "path" = none →
          on_message_map m = .error (.keyError "path"))
        ∧ (∀ p, objLookup kvs "path" = some p → objLookup kvs "data" = none →
          on_message_map m = .error (.keyError "data")))
    ∧ (isPyNone m.data = false → (∀ kvs, m.data ≠ some (.obj kvs)) →
        on_message_map m = .error .unboundLocal) := by
  have hev : ∃ ev, eventTypeOf m.event = .ok ev := by
    rcases hname with h | h <;> rw [h] <;> exact ⟨_, rfl⟩
  obtain ⟨ev, hev⟩ := hev
  refine ⟨?_, ?_, ?_⟩
  · intro hnone
    match hd : m.data with
    | none => exact ⟨ev, by simp [on_message_map, hd, hev]⟩
    | some .null => exact ⟨ev, by simp [on_message_map, hd, hev]⟩
    | some (.obj kvs) => rw [hd] at hnone; simp [isPyNone] at hnone
    | some (.bool b) => rw [hd] at hnone; simp [isPyNone] at hnone
    | some (.int n) => rw [hd] at hnone; simp [isPyNone] at hnone
    | some (.str s) => rw [hd] at hnone; simp [isPyNone] at hnone
    | some (.arr es) => rw [hd] at hnone; simp [isPyNone] at hnone
  · intro kvs hd
    constructor
    · intro hpath
      simp [on_message_map, hd, hev, hpath]
    · intro p hpath hdata
      simp [on_message_map, hd, hev, hpath, hdata]
  · intro hnotnone hnotobj
    match hd : m.data with
    | none => rw [hd] at hnotnone; simp [isPyNone] at hnotnone
    | some .null => rw [hd] at hnotnone; simp [isPyNone] at hnotnone
    | some (.obj kvs) => exact absurd hd (hnotobj kvs)
    | some (.bool b) => simp [on_message_map, hd]
    | some (.int n) => simp [on_message_map, hd]
    | some (.str s) => simp [on_message_map, hd]
    | some (.arr es) => simp [on_message_map, hd]

/-- Witness for C4 (amended) at a `put` message whose dict payload lacks
`path`. -/
theorem put_patch_malformed_data_behavior_witness :
    (("put" : String) = "put" ∨ ("put" : String) = "patch")
    ∧ ((isPyNone (some (JSON.obj [("data", .int 1)])) = true →
          ∃ ev, on_message_map ⟨"put", some (.obj [("data", .int 1)]), none, none⟩
            = .ok ⟨ev, none, none⟩)
      ∧ (∀ kvs, some (JSON.obj [("data", .int 1)]) = some (.obj kvs) →
          (objLookup kvs "path" = none →
            on_message_map ⟨"put", some (.obj [("data", .int 1)]), none, none⟩
              = .error (.keyError "path"))
          ∧ (∀ p, objLookup kvs "path" = some p → objLookup kvs "data" = none →
            on_message_map ⟨"put", some (.obj [("data", .int 1)]), none, none⟩
              = .error (.keyError "data")))
      ∧ (isPyNone (some (JSON.obj [("data", .int 1)])) = false →
          (∀ kvs, some (JSON.obj [("data", .int 1)]) ≠ some (.obj kvs)) →
          on_message_map ⟨"put", some (.obj [("data", .int 1)]), none, none⟩
            = .error .unboundLocal)) :=
  ⟨Or.inl rfl,
    put_patch_malformed_data_behavior ⟨"put", some (.obj [("data", .int 1)]), none, none⟩
      (Or.inl rfl)⟩

/-! ### C5 -/

/-- C5: a `put` message with payload `{"path": "/a/b", "data": {"x": 1}}`
maps to `{kind: put, path: "/a/b", data: {"x": 1}}`. -/
theorem put_round_trip :
    on_message_map
        ⟨"put", some (.obj [("path", .str "/a/b"), ("data", .obj [("x", .int 1)])]),
          none, none⟩
      = .ok ⟨.put, some (.str "/a/b"), some (.obj [("x", .int 1)])⟩ := rfl

/-! ### C6 -/

/-- C6: when `open()` cannot establish the connection or the server answers
with a non-success status, it schedules `on_error` exactly when a handler was
supplied, raises the typed stream exception whose constructor tells the two
failures apart, and never invokes `on_message` (nor `on_open`). -/
theorem open_failure_behavior (url : String) (hasOnOpen hasOnError : Bool)
    (outcome : ConnectOutcome)
    (hfail : outcome = .connectError
      ∨ ∃ s, outcome = .response s ∧ successStatus s = false) :
    (sseOpen url hasOnOpen hasOnError outcome).onMessageInvoked = false
    ∧ (sseOpen url hasOnOpen hasOnError outcome).onErrorInvoked = hasOnError
    ∧ (sseOpen url hasOnOpen hasOnError outcome).onOpenInvoked = false
    ∧ ((sseOpen url hasOnOpen hasOnError outcome).result
        = .error (.unableToConnect url) ↔ outcome = .connectError)
    ∧ ((sseOpen url hasOnOpen hasOnError outcome).result
        = .error (.badResponse url)
        ↔ ∃ s, outcome = .response s ∧ successStatus s = false) := by
  rcases hfail with h | ⟨s, hs, hbad⟩
  · subst h
    refine ⟨rfl, rfl, rfl, by simp [sseOpen], ?_⟩
    constructor
    · intro hres
      simp [sseOpen] at hres
    · rintro ⟨s, hs, _⟩
      exact absurd hs (by simp)
  · subst hs
    refine ⟨?_, ?_, ?_, ?_, ?_⟩ <;> simp [sseOpen, hbad]

/-- Witness for C6 at a 404 rejection. -/
theorem open_failure_behavior_witness :
    ((ConnectOutcome.response 404) = .connectError
      ∨ ∃ s, (ConnectOutcome.response 404) = .response s ∧ successStatus s = false)
    ∧ ((sseOpen "http://nothing" false true (.response 404)).onMessageInvoked = false
      ∧ (sseOpen "http://nothing" false true (.response 404)).onErrorInvoked = true
      ∧ (sseOpen "http://nothing" false true (.response 404)).onOpenInvoked = false
      ∧ ((sseOpen "http://nothing" false true (.response 404)).result
          = .error (.unableToConnect "http://nothing")
          ↔ (ConnectOutcome.response 404) = .connectError)
      ∧ ((sseOpen "http://nothing" false true (.response 404)).result
          = .error (.badResponse "http://nothing")
          ↔ ∃ s, (ConnectOutcome.response 404) = .response s ∧ successStatus s = false)) :=
  ⟨Or.inr ⟨404, rfl, rfl⟩,
    open_failure_behavior "http://nothing" false true (.response 404)
      (Or.inr ⟨404, rfl, rfl⟩)⟩

/-! ### C8 -/

/-- C8 counterexample: `child` does not extend the parameter map — it resets
it.  On a node carrying `shallow=true`, the child node's `query_params` is
`None` and the entry is gone. -/
theorem child_drops_query_params :
    (child ⟨"a", some [("shallow", PVal.s "true")]⟩ ["b"]).queryParams = none
    ∧ dictLookupP ((RtdbNode.mk "a" (some [("shallow", PVal.s "true")])).queryParams.getD [])
        "shallow" = some (PVal.s "true")
    ∧ dictLookupP ((child ⟨"a", some [("shallow", PVal.s "true")]⟩ ["b"]).queryParams.getD [])
        "shallow" = none :=
  ⟨rfl, rfl, rfl⟩

/-- C8 (amended): every parameter builder is pure and returns a new node with
the same path whose parameter map is the original's extended by appending or
overwriting exactly one entry (the original node is untouched — the builders
construct a fresh node from a copied map); `child`, by contrast, returns a
node with the extended path and a reset (`None`) parameter map. -/
theorem builders_append_one_entry (node : RtdbNode) (cl : String)
    (lim lim2 : Int) (v1 v2 v3 : PVal) (ts : String) (sz : SizeLimit)
    (segments : List String) :
    order_by node cl
      = ⟨node.path, some (dictInsertP (node.queryParams.getD []) "orderBy"
          (.s ("\"" ++ cl ++ "\"")))⟩
    ∧ limit_to_first node lim
      = ⟨node.path, some (dictInsertP (node.queryParams.getD []) "limitToFirst"
          (.s (toString lim)))⟩
    ∧ limit_to_last node lim2
      = ⟨node.path, some (dictInsertP (node.queryParams.getD []) "limitToLast"
          (.s (toString lim2)))⟩
    ∧ start_at node v1
      = ⟨node.path, some (dictInsertP (node.queryParams.getD []) "startAt"
          (quoteIfStr v1))⟩
    ∧ end_at node v2
      = ⟨node.path, some (dictInsertP (node.queryParams.getD []) "endAt"
          (quoteIfStr v2))⟩
    ∧ equal_to node v3
      = ⟨node.path, some (dictInsertP (node.queryParams.getD []) "equalTo"
          (quoteIfStr v3))⟩
    ∧ shallow node
      = ⟨node.path, some (dictInsertP (node.queryParams.getD []) "shallow" (.s "true"))⟩
    ∧ export_format node
      = ⟨node.path, some (dictInsertP (node.queryParams.getD []) "format" (.s "export"))⟩
    ∧ timeout node ts
      = ⟨node.path, some (dictInsertP (node.queryParams.getD []) "timeout"
          (.s (ts ++ "s")))⟩
    ∧ write_size_limit node sz
      = ⟨node.path, some (dictInsertP (node.queryParams.getD []) "writeSizeLimit"
          (.s sz.value))⟩
    ∧ child node segments
      = ⟨if node.path ≠ "" then joinSlash [node.path, joinSlash segments]
          else joinSlash segments, none⟩ := by
  refine ⟨?_, ?_, ?_, ?_, ?_, ?_, ?_, ?_, ?_, ?_, ?_⟩ <;> rfl

/-! ### C10: lemmas about `message_dict` construction -/

/-- Inserting a key leaves it among the dict's keys. -/
theorem dictInsertF_self_mem (d : List (String × FieldVal)) (k : String) (v : FieldVal) :
    k ∈ (dictInsertF d k v).map Prod.fst := by
  induction d with
  | nil => simp [dictInsertF]
  | cons kv rest ih =>
    obtain ⟨k0, v0⟩ := kv
    by_cases hk : k0 = k
    · simp [dictInsertF, hk]
    · simp only [dictInsertF, if_neg hk, List.map_cons, List.mem_cons]
      exact Or.inr ih

/-- Inserting never removes a key. -/
theorem dictInsertF_keys_mono (d : List (String × FieldVal)) (k0 k : String)
    (v : FieldVal) (h : k0 ∈ d.map Prod.fst) :
    k0 ∈ (dictInsertF d k v).map Prod.fst := by
  induction d with
  | nil => simp at h
  | cons kv rest ih =>
    obtain ⟨k1, v1⟩ := kv
    by_cases hk : k1 = k
    · simpa [dictInsertF, hk] using h
    · simp only [List.map_cons, List.mem_cons] at h
      rcases h with h | h
      · simp [dictInsertF, if_neg hk, h]
      · simp only [dictInsertF, if_neg hk, List.map_cons, List.mem_cons]
        exact Or.inr (ih h)

/-- The `emit_message` loop only ever adds keys to `message_dict`. -/
theorem buildDict_keys_mono (lines : List String) :
    ∀ d d', buildDict lines d = .ok d' →
      ∀ k, k ∈ d.map Prod.fst → k ∈ d'.map Prod.fst := by
  induction lines with
  | nil =>
    intro d d' h k hk
    simp only [buildDict] at h
    cases h
    exact hk
  | cons l rest ih =>
    intro d d' h k hk
    simp only [buildDict] at h
    by_cases hl : l = ""
    · rw [if_pos hl] at h
      exact ih d d' h k hk
    · rw [if_neg hl] at h
      match hs : splitColon1 l with
      | none => rw [hs] at h; cases h
      | some (keyRaw, valueRaw) =>
        rw [hs] at h
        dsimp only at h
        by_cases hdata : pyStrip keyRaw = "data"
        · rw [if_pos hdata] at h
          match hj : jsonLoads (pyStrip valueRaw) with
          | none => rw [hj] at h; cases h
          | some j =>
            rw [hj] at h
            exact ih _ d' h k (dictInsertF_keys_mono _ _ _ _ hk)
        · rw [if_neg hdata] at h
          exact ih _ d' h k (dictInsertF_keys_mono _ _ _ _ hk)

/-- If some line of the block names a field outside the dataclass's fields,
a successful `message_dict` build keeps that foreign key. -/
theorem buildDict_keeps_unknown_key (lines : List String) :
    ∀ d d', buildDict lines d = .ok d' →
      ∀ l ∈ lines, unknownFieldLine l = true →
        ∃ k, k ∈ d'.map Prod.fst ∧ sseMessageFields.contains k = false := by
  induction lines with
  | nil =>
    intro d d' _ l hl
    simp at hl
  | cons l0 rest ih =>
    intro d d' h l hl hul
    simp only [buildDict] at h
    rcases List.mem_cons.mp hl with heq | hmem
    · subst heq
      have hl0 : ¬(l = "") := by
        intro hc
        rw [unknownFieldLine, hc] at hul
        simp at hul
      rw [if_neg hl0] at h
      match hs : splitColon1 l with
      | none =>
        rw [unknownFieldLine, hs] at hul
        simp [hl0] at hul
      | some (keyRaw, valueRaw) =>
        rw [hs] at h
        dsimp only at h
        have hkey : sseMessageFields.contains (pyStrip keyRaw) = false := by
          rw [unknownFieldLine, hs] at hul
          simpa [hl0] using hul
        have hdata : ¬(pyStrip keyRaw = "data") := by
          intro hc
          rw [hc] at hkey
          simp [sseMessageFields] at hkey
        rw [if_neg hdata] at h
        exact ⟨pyStrip keyRaw,
          buildDict_keys_mono rest _ d' h _ (dictInsertF_self_mem _ _ _), hkey⟩
    · by_cases hl0 : l0 = ""
      · rw [if_pos hl0] at h
        exact ih d d' h l hmem hul
      · rw [if_neg hl0] at h
        match hs : splitColon1 l0 with
        | none => rw [hs] at h; cases h
        | some (keyRaw, valueRaw) =>
          rw [hs] at h
          dsimp only at h
          by_cases hdata : pyStrip keyRaw = "data"
          · rw [if_pos hdata] at h
            match hj : jsonLoads (pyStrip valueRaw) with
            | none => rw [hj] at h; cases h
            | some j => rw [hj] at h; exact ih _ d' h l hmem hul
          · rw [if_neg hdata] at h
            exact ih _ d' h l hmem hul

/-- `SseMessage(**message_dict)` raises when the dict holds a foreign key. -/
theorem mkSseMessage_error_of_unknown_key (d : List (String × FieldVal))
    (k : String) (hmem : k ∈ d.map Prod.fst)
    (hbad : sseMessageFields.contains k = false) :
    ∃ e, mkSseMessage d = .error e := by
  match hf : d.find? (fun kv => !(sseMessageFields.contains kv.1)) with
  | some kv =>
    refine ⟨.unexpectedKeyword kv.1, ?_⟩
    unfold mkSseMessage
    rw [hf]
  | none =>
    exfalso
    obtain ⟨⟨k1, v1⟩, hkv, hk1⟩ := List.mem_map.mp hmem
    have hall := List.find?_eq_none.mp hf ⟨k1, v1⟩ hkv
    simp only [Bool.not_eq_true'] at hall
    rw [Bool.not_eq_false] at hall
    have hk1' : k1 = k := hk1
    rw [hk1'] at hall
    rw [hall] at hbad
    cases hbad

/-- C10: a completed block containing a line whose trimmed field name is
outside {`event`, `data`, `origin`, `last_event_id`} — including the standard
SSE fields `id` and `retry` — makes `emit_message` raise (the unexpected
keyword `TypeError` when the rest of the block is clean, an earlier framing
error otherwise); no `SseMessage` is ever produced for the block. -/
theorem unknown_field_name_rejected (lines : List String)
    (h : ∃ l ∈ lines, unknownFieldLine l = true) :
    ∃ e, emit_message lines = .error e := by
  obtain ⟨l, hl, hul⟩ := h
  match hb : buildDict lines [] with
  | .error e => exact ⟨e, by simp [emit_message, hb]⟩
  | .ok d =>
    obtain ⟨k, hk, hbad⟩ := buildDict_keeps_unknown_key lines [] d hb l hl hul
    obtain ⟨e, he⟩ := mkSseMessage_error_of_unknown_key d k hk hbad
    exact ⟨e, by simp [emit_message, hb, he]⟩

/-- Witness for C10 at a block carrying the standard SSE `id` field. -/
theorem unknown_field_name_rejected_witness :
    (∃ l ∈ ["id: 5", "event: put"], unknownFieldLine l = true)
    ∧ ∃ e, emit_message ["id: 5", "event: put"] = .error e :=
  ⟨⟨"id: 5", by simp, by decide⟩,
    unknown_field_name_rejected ["id: 5", "event: put"] ⟨"id: 5", by simp, by decide⟩⟩

/-! ### C9: FIFO delivery -/

/-- One scheduler step moves events along `pending → queue → observed`
without changing their concatenation. -/
theorem qstep_partition (s : QState) (b : Bool) :
    (qstep s b).observed ++ (qstep s b).queue ++ (qstep s b).pending
      = s.observed ++ s.queue ++ s.pending := by
  obtain ⟨pending, queue, observed⟩ := s
  cases b
  · cases queue <;> simp [qstep]
  · cases pending <;> simp [qstep]

/-- The partition invariant holds along any schedule. -/
theorem qrun_partition (sched : List Bool) :
    ∀ s : QState,
      (qrun s sched).observed ++ (qrun s sched).queue ++ (qrun s sched).pending
        = s.observed ++ s.queue ++ s.pending := by
  induction sched with
  | nil => intro s; rfl
  | cons b bs ih =>
    intro s
    calc (qrun s (b :: bs)).observed ++ (qrun s (b :: bs)).queue
          ++ (qrun s (b :: bs)).pending
        = (qstep s b).observed ++ (qstep s b).queue ++ (qstep s b).pending :=
          ih (qstep s b)
      _ = s.observed ++ s.queue ++ s.pending := qstep_partition s b

/-- A successfully classified message contributes exactly one event. -/
theorem mappedEvents_length (msgs : List SseMessage)
    (h : ∀ m ∈ msgs, mapOk m = true) :
    (mappedEvents msgs).length = msgs.length := by
  induction msgs with
  | nil => rfl
  | cons m rest ih =>
    have hm := h m (List.mem_cons_self m rest)
    rw [mapOk] at hm
    match hmm : on_message_map m with
    | .ok e =>
      simp only [mappedEvents, List.foldr_cons, hmm]
      have := ih (fun m hm => h m (List.mem_cons_of_mem _ hm))
      simp only [mappedEvents] at this
      simp [this]
    | .error e => rw [hmm] at hm; cases hm

/-- C9: the events of messages M1, M2, … framed in that order are enqueued in
that order, and for any interleaving of producer and consumer steps the
consumer observes them in exactly that order: at every point the observed
prefix, the queue contents and the not-yet-enqueued suffix partition the
arrival sequence, and a full drain observes precisely the arrival sequence.
Under normal operation (every message classifies) no event is dropped: there
are exactly as many events as messages. -/
theorem queue_delivery_in_order (msgs : List SseMessage) (sched : List Bool)
    (hok : ∀ m ∈ msgs, mapOk m = true) :
    (mappedEvents msgs).length = msgs.length
    ∧ (qrun ⟨mappedEvents msgs, [], []⟩ sched).observed
        ++ (qrun ⟨mappedEvents msgs, [], []⟩ sched).queue
        ++ (qrun ⟨mappedEvents msgs, [], []⟩ sched).pending
      = mappedEvents msgs
    ∧ ((qrun ⟨mappedEvents msgs, [], []⟩ sched).pending = [] →
        (qrun ⟨mappedEvents msgs, [], []⟩ sched).queue = [] →
        (qrun ⟨mappedEvents msgs, [], []⟩ sched).observed = mappedEvents msgs) := by
  have hpart := qrun_partition sched ⟨mappedEvents msgs, [], []⟩
  simp only [List.append_nil, List.nil_append] at hpart
  refine ⟨mappedEvents_length msgs hok, hpart, ?_⟩
  intro hp hq
  rw [hp, hq] at hpart
  simpa using hpart

/-- Witness for C9: two messages, a delayed consumer draining after both
arrive. -/
theorem queue_delivery_in_order_witness :
    (∀ m ∈ [(⟨"put", some (.obj [("path", .str "/"), ("data", .int 1)]), none, none⟩ : SseMessage),
        ⟨"keep-alive", none, none, none⟩], mapOk m = true)
    ∧ ((mappedEvents [⟨"put", some (.obj [("path", .str "/"), ("data", .int 1)]), none, none⟩,
          ⟨"keep-alive", none, none, none⟩]).length = 2
      ∧ (qrun ⟨mappedEvents [⟨"put", some (.obj [("path", .str "/"), ("data", .int 1)]), none, none⟩,
            ⟨"keep-alive", none, none, none⟩], [], []⟩ [true, true, false, false]).observed
          ++ (qrun ⟨mappedEvents [⟨"put", some (.obj [("path", .str "/"), ("data", .int 1)]), none, none⟩,
            ⟨"keep-alive", none, none, none⟩], [], []⟩ [true, true, false, false]).queue
          ++ (qrun ⟨mappedEvents [⟨"put", some (.obj [("path", .str "/"), ("data", .int 1)]), none, none⟩,
            ⟨"keep-alive", none, none, none⟩], [], []⟩ [true, true, false, false]).pending
        = mappedEvents [⟨"put", some (.obj [("path", .str "/"), ("data", .int 1)]), none, none⟩,
            ⟨"keep-alive", none, none, none⟩]
      ∧ ((qrun ⟨mappedEvents [⟨"put", some (.obj [("path", .str "/"), ("data", .int 1)]), none, none⟩,
            ⟨"keep-alive", none, none, none⟩], [], []⟩ [true, true, false, false]).pending = [] →
          (qrun ⟨mappedEvents [⟨"put", some (.obj [("path", .str "/"), ("data", .int 1)]), none, none⟩,
            ⟨"keep-alive", none, none, none⟩], [], []⟩ [true, true, false, false]).queue = [] →
          (qrun ⟨mappedEvents [⟨"put", some (.obj [("path", .str "/"), ("data", .int 1)]), none, none⟩,
            ⟨"keep-alive", none, none, none⟩], [], []⟩ [true, true, false, false]).observed
            = mappedEvents [⟨"put", some (.obj [("path", .str "/"), ("data", .int 1)]), none, none⟩,
                ⟨"keep-alive", none, none, none⟩])) :=
  ⟨by decide,
    queue_delivery_in_order _ [true, true, false, false] (by decide)⟩

/-! ### C7: a split multi-byte character is buffered, never fatal -/

/-- C7: when a chunk ends mid-character (the accumulated buffer fails strict
UTF-8 decoding) the read loop just keeps the buffer — by construction the
`UnicodeError` is caught and `continue`d, so no decode error can escape — and
once the following chunk completes the character (and the line), the decoded
text, character intact, is appended to `message_lines` as the next completed
line(s). -/
theorem utf8_split_buffered (ml : List String) (lb b1 b2 : List Nat) (txt : String)
    (h1 : utf8DecodeStr (lb ++ b1) = none)
    (h2 : utf8DecodeStr ((lb ++ b1) ++ b2) = some txt)
    (h3 : endsNl txt = true) (h4 : endsNlNl txt = false) (h5 : txt ≠ "\n")
    (hb1 : b1 ≠ []) (hb2 : b2 ≠ []) :
    processChunk ⟨ml, lb⟩ b1 = .ok (⟨ml, lb ++ b1⟩, none)
    ∧ processChunk ⟨ml, lb ++ b1⟩ b2
      = .ok (⟨ml ++ splitNl (rstripNl txt), []⟩, none) := by
  constructor
  · rw [processChunk, if_neg hb1]
    simp only [h1]
  · rw [processChunk, if_neg hb2]
    simp only [h2, h3, if_pos, h4, h5]
    simp [h5]

/-- Witness for C7: the two-byte character `é` split across two chunks in
the middle of an `event:` line. -/
theorem utf8_split_buffered_witness :
    (utf8DecodeStr (([] : List Nat) ++ (utf8Encode "event: caf" ++ [0xC3])) = none
    ∧ utf8DecodeStr ((([] : List Nat) ++ (utf8Encode "event: caf" ++ [0xC3])) ++ [0xA9, 10])
        = some "event: café\n"
    ∧ endsNl "event: café\n" = true
    ∧ endsNlNl "event: café\n" = false
    ∧ "event: café\n" ≠ "\n")
    ∧ processChunk ⟨[], []⟩ (utf8Encode "event: caf" ++ [0xC3])
        = .ok (⟨[], [] ++ (utf8Encode "event: caf" ++ [0xC3])⟩, none)
    ∧ processChunk ⟨[], [] ++ (utf8Encode "event: caf" ++ [0xC3])⟩ [0xA9, 10]
        = .ok (⟨[] ++ splitNl (rstripNl "event: café\n"), []⟩, none) :=
  ⟨⟨rfl, rfl, rfl, rfl, by decide⟩,
    utf8_split_buffered [] [] (utf8Encode "event: caf" ++ [0xC3]) [0xA9, 10]
      "event: café\n" rfl rfl rfl rfl (by decide) (by simp) (by simp)⟩

/-! ### C1: block/chunk framing lemmas -/

/-- Rebuilding a string from its characters is the identity. -/
theorem strMkData (s : String) : (⟨s.data⟩ : String) = s := rfl

/-- One encoded scalar is never empty. -/
theorem utf8EncodeNat_ne_nil (n : Nat) : utf8EncodeNat n ≠ [] := by
  rw [utf8EncodeNat]
  split
  · simp
  · split
    · simp
    · split <;> simp

/-- Encoding yields no bytes exactly for the empty string. -/
theorem utf8Encode_eq_nil_iff (s : String) : utf8Encode s = [] ↔ s.data = [] := by
  rw [utf8Encode]
  match h : s.data with
  | [] => simp
  | c :: rest =>
    simp only [List.foldr_cons]
    constructor
    · intro hc
      exact absurd (List.append_eq_nil.mp hc).1 (utf8EncodeNat_ne_nil c.toNat)
    · intro hc
      cases hc

/-- The character content of a block's wire text. -/
theorem blockText_data_cons (l : String) (rest : List String) :
    (blockText (l :: rest)).data = l.data ++ '\n' :: (blockText rest).data := by
  simp [blockText, List.foldr_cons]

/-- Unfolding `interChars` on a single line. -/
theorem interChars_single (l : String) : interChars [l] = l.data := rfl

/-- Unfolding `interChars` on two or more lines. -/
theorem interChars_cons2 (l r : String) (rs : List String) :
    interChars (l :: r :: rs) = l.data ++ '\n' :: interChars (r :: rs) := rfl

/-- A nonempty block's wire text is its newline-joined lines followed by the
blank-line terminator. -/
theorem blockText_interChars (B : List String) (h : B ≠ []) :
    (blockText B).data = interChars B ++ ['\n', '\n'] := by
  induction B with
  | nil => exact absurd rfl h
  | cons l rest ih =>
    match rest with
    | [] =>
      show (blockText [l]).data = l.data ++ ['\n', '\n']
      rw [blockText_data_cons]
      rfl
    | r :: rs =>
      rw [blockText_data_cons, ih (by simp), interChars_cons2]
      simp

/-- A nonempty list of characters ends in some character. -/
theorem exists_last_char (cs : List Char) (h : cs ≠ []) :
    ∃ ys c, cs = ys ++ [c] ∧ c ∈ cs := by
  rcases List.eq_nil_or_concat cs with hc | ⟨ys, c, hc⟩
  · exact absurd hc h
  · exact ⟨ys, c, by simpa [List.concat_eq_append] using hc, by
      rw [hc]; simp [List.concat_eq_append]⟩

/-- Under the block well-formedness conditions, the joined lines end in a
non-newline character. -/
theorem interChars_last (B : List String) (hne : B ≠ [])
    (hl : ∀ l ∈ B, l ≠ "" ∧ '\n' ∉ l.data) :
    ∃ ys c, interChars B = ys ++ [c] ∧ c ≠ '\n' := by
  induction B with
  | nil => exact absurd rfl hne
  | cons l rest ih =>
    match rest with
    | [] =>
      obtain ⟨hlne, hlnl⟩ := hl l (by simp)
      have hdata : l.data ≠ [] := by
        intro hc
        exact hlne (by rw [← strMkData l, hc])
      obtain ⟨ys, c, hcs, hcmem⟩ := exists_last_char l.data hdata
      exact ⟨ys, c, by rw [interChars_single, hcs], fun hc => hlnl (hc ▸ hcmem)⟩
    | r :: rs =>
      obtain ⟨ys, c, hcs, hcne⟩ :=
        ih (by simp) (fun l2 hl2 => hl l2 (List.mem_cons_of_mem _ hl2))
      refine ⟨l.data ++ '\n' :: ys, c, ?_, hcne⟩
      rw [interChars_cons2, hcs]
      simp

/-- Stripping the trailing newlines of a block's wire text recovers exactly
the newline-joined lines. -/
theorem rstripNl_blockText (B : List String) (hne : B ≠ [])
    (hl : ∀ l ∈ B, l ≠ "" ∧ '\n' ∉ l.data) :
    rstripNl (blockText B) = ⟨interChars B⟩ := by
  obtain ⟨ys, c, hcs, hcne⟩ := interChars_last B hne hl
  rw [rstripNl, blockText_interChars B hne, hcs]
  have : ((ys ++ [c]) ++ ['\n', '\n']).reverse = '\n' :: '\n' :: c :: ys.reverse := by
    simp
  rw [this]
  have hdrop : List.dropWhile (· == '\n') ('\n' :: '\n' :: c :: ys.reverse)
      = c :: ys.reverse := by
    rw [List.dropWhile_cons_of_pos (by simp), List.dropWhile_cons_of_pos (by simp),
      List.dropWhile_cons_of_neg (by simpa using hcne)]
  rw [hdrop]
  simp

/-- Splitting a newline-free character list yields that single group. -/
theorem splitCharsNl_no_nl (cs : List Char) (h : '\n' ∉ cs) :
    splitCharsNl cs = [cs] := by
  induction cs with
  | nil => rfl
  | cons c rest ih =>
    have hc : ¬(c = '\n') := fun hc => h (by simp [hc])
    rw [splitCharsNl, if_neg hc, ih (fun hm => h (List.mem_cons_of_mem _ hm))]

/-- Splitting at the first of the joining newlines peels off one line. -/
theorem splitCharsNl_append (l t : List Char) (h : '\n' ∉ l) :
    splitCharsNl (l ++ '\n' :: t) = l :: splitCharsNl t := by
  induction l with
  | nil => simp [splitCharsNl]
  | cons c rest ih =>
    have hc : ¬(c = '\n') := fun hc => h (by simp [hc])
    rw [List.cons_append, splitCharsNl, if_neg hc,
      ih (fun hm => h (List.mem_cons_of_mem _ hm))]

/-- Splitting the newline-joined lines recovers the lines. -/
theorem splitNl_interChars (B : List String) (hne : B ≠ [])
    (hl : ∀ l ∈ B, l ≠ "" ∧ '\n' ∉ l.data) :
    splitNl ⟨interChars B⟩ = B := by
  induction B with
  | nil => exact absurd rfl hne
  | cons l rest ih =>
    match rest with
    | [] =>
      rw [interChars_single, splitNl]
      show (splitCharsNl l.data).map (fun cs => (⟨cs⟩ : String)) = [l]
      rw [splitCharsNl_no_nl l.data (hl l (by simp)).2]
      simp [strMkData]
    | r :: rs =>
      rw [interChars_cons2, splitNl]
      show (splitCharsNl (l.data ++ '\n' :: interChars (r :: rs))).map
          (fun cs => (⟨cs⟩ : String)) = l :: r :: rs
      rw [splitCharsNl_append _ _ (hl l (by simp)).2, List.map_cons, strMkData]
      have := ih (by simp) (fun l2 hl2 => hl l2 (List.mem_cons_of_mem _ hl2))
      rw [splitNl] at this
      rw [this]

/-- A nonempty block's wire text ends with a newline. -/
theorem endsNl_blockText (B : List String) (hne : B ≠ []) :
    endsNl (blockText B) = true := by
  rw [endsNl, blockText_interChars B hne]
  simp

/-- A nonempty block's wire text ends with the blank-line terminator. -/
theorem endsNlNl_blockText (B : List String) (hne : B ≠ []) :
    endsNlNl (blockText B) = true := by
  rw [endsNlNl, blockText_interChars B hne]
  have : (interChars B ++ ['\n', '\n']).reverse
      = '\n' :: '\n' :: (interChars B).reverse := by simp
  rw [this]
  rfl

/-- A successful assembly returns exactly `emittedMessage`. -/
theorem emitOk_spec (B : List String) (h : emitOk B = true) :
    emit_message B = .ok (emittedMessage B) := by
  rw [emitOk] at h
  match hm : emit_message B with
  | .ok m => rw [emittedMessage, hm]
  | .error e => rw [hm] at h; cases h

/-- Unpacking `goodBlockLines`. -/
theorem goodBlockLines_spec (B : List String) (h : goodBlockLines B = true) :
    B ≠ [] ∧ (∀ l ∈ B, l ≠ "" ∧ '\n' ∉ l.data) ∧ emitOk B = true := by
  rw [goodBlockLines] at h
  simp only [Bool.and_eq_true, Bool.not_eq_true', List.all_eq_true] at h
  obtain ⟨⟨hne, hall⟩, hemit⟩ := h
  refine ⟨by simpa using hne, ?_, hemit⟩
  intro l hl
  have := hall l hl
  simp only [Bool.and_eq_true, Bool.not_eq_true'] at this
  obtain ⟨h1, h2⟩ := this
  refine ⟨by simpa using h1, ?_⟩
  simpa using h2

/-- Feeding one whole well-formed block as one chunk to a clean framer emits
exactly that block's message and returns the framer to the clean state. -/
theorem processChunk_block (B : List String)
    (hg : goodBlockLines B = true)
    (hd : utf8DecodeStr (utf8Encode (blockText B)) = some (blockText B)) :
    processChunk ⟨[], []⟩ (utf8Encode (blockText B))
      = .ok (⟨[], []⟩, some (emittedMessage B)) := by
  obtain ⟨hne, hl, hemit⟩ := goodBlockLines_spec B hg
  have hchunk : utf8Encode (blockText B) ≠ [] := by
    rw [Ne, utf8Encode_eq_nil_iff, blockText_interChars B hne]
    simp
  rw [processChunk, if_neg hchunk]
  simp only [List.nil_append, hd, endsNl_blockText B hne, endsNlNl_blockText B hne,
    if_true, Bool.true_or, rstripNl_blockText B hne hl, splitNl_interChars B hne hl]
  rw [emitOk_spec B hemit]

/-- C1 (amended): when every blank-line boundary coincides with a chunk
boundary — in particular when each well-formed block arrives as its own
chunk — the framer emits exactly one message per block, in arrival order,
never reordering.  (The framer checks for the terminator only at the end of
a chunk's accumulated text, so this boundary condition is what the code
actually guarantees; a chunk spanning several blocks merges them, see the
counterexample.) -/
theorem framer_block_per_chunk_in_order (Bs : List (List String))
    (hg : ∀ B ∈ Bs, goodBlockLines B = true)
    (hd : ∀ B ∈ Bs, utf8DecodeStr (utf8Encode (blockText B)) = some (blockText B)) :
    processChunks ⟨[], []⟩ (Bs.map (fun B => utf8Encode (blockText B)))
      = .ok (⟨[], []⟩, Bs.map emittedMessage) := by
  induction Bs with
  | nil => rfl
  | cons B rest ih =>
    have hB := processChunk_block B (hg B (by simp)) (hd B (by simp))
    have hrest := ih (fun B2 h2 => hg B2 (List.mem_cons_of_mem _ h2))
      (fun B2 h2 => hd B2 (List.mem_cons_of_mem _ h2))
    rw [List.map_cons, processChunks, hB, exceptBindOk]
    dsimp only
    rw [hrest, exceptBindOk]
    rfl

/-- Witness for C1 (amended): a `put` block and a `keep-alive` block, one
chunk each, emit two messages in order. -/
theorem framer_block_per_chunk_in_order_witness :
    (∀ B ∈ [["event: put", "data: null"], ["event: keep-alive"]],
      goodBlockLines B = true)
    ∧ (∀ B ∈ [["event: put", "data: null"], ["event: keep-alive"]],
      utf8DecodeStr (utf8Encode (blockText B)) = some (blockText B))
    ∧ processChunks ⟨[], []⟩
        (List.map (fun B => utf8Encode (blockText B))
          [["event: put", "data: null"], ["event: keep-alive"]])
      = .ok (⟨[], []⟩,
          List.map emittedMessage [["event: put", "data: null"], ["event: keep-alive"]]) :=
  ⟨by decide, by decide,
    framer_block_per_chunk_in_order
      [["event: put", "data: null"], ["event: keep-alive"]] (by decide) (by decide)⟩

/-- C1 counterexample: one chunk whose bytes are the concatenation of two
well-formed SSE blocks.  The framer emits a single merged message instead of
two: `N = 2` blocks, one message.  (The interior blank line is folded into
`message_lines` and skipped by `emit_message`, so the two blocks' fields
collapse into one message.) -/
theorem framer_merges_blocks_in_single_chunk :
    goodBlockLines ["event: keep-alive"] = true
    ∧ utf8Encode (blockText ["event: keep-alive"])
        ++ utf8Encode (blockText ["event: keep-alive"])
      = utf8Encode "event: keep-alive\n\nevent: keep-alive\n\n"
    ∧ processChunks ⟨[], []⟩ [utf8Encode "event: keep-alive\n\nevent: keep-alive\n\n"]
      = .ok (⟨[], []⟩, [⟨"keep-alive", none, none, none⟩]) :=
  ⟨by decide, by decide, rfl⟩

end Firebasil
